import Mathlib

/-!
Shallow embedding of the conversational diary bot in `bot.py` and proofs
about its conversation wizard, reminder scheduler, message chunking,
registration middleware and SQLite row operations.

Python strings are embedded as `List Char`; machine integers do not occur
(Python integers are unbounded, embedded as `Nat`); the SQLite tables are
embedded as association lists keyed by user id (the tables involved all have
an `INTEGER PRIMARY KEY`); fallible paths return explicit outcome values.
-/

namespace Bot

/-- Characters of an inbound or outbound message: the embedding of a Python
`str` value. -/
abbrev Text := List Char

/-! ### split_message (bot.py lines 510-512) -/

/-- Embedding of `split_message` from `bot.py`:
`[message[i:i + chunk_size] for i in range(0, len(message), chunk_size)]`.
For `chunk_size > 0`, `range(0, len(message), chunk_size)` has
`ceil(len / chunk_size)` elements `0, chunk_size, 2*chunk_size, ...`, and the
Python slice `message[i:i + chunk_size]` is `take chunk_size (drop i message)`. -/
def split_message (message : Text) (chunk_size : Nat) : List Text :=
  (List.range ((message.length + chunk_size - 1) / chunk_size)).map
    (fun k => (message.drop (k * chunk_size)).take chunk_size)

theorem split_message_map_length (message : Text) (c : Nat) :
    (split_message message c).map List.length =
      (List.range ((message.length + c - 1) / c)).map
        (fun k => min c (message.length - k * c)) := by
  simp [split_message, List.map_map, Function.comp_def]

theorem split_message_nil (c : Nat) : split_message ([] : Text) c = [] := by
  rcases c with _ | c
  · simp [split_message]
  · have h : (0 + (c + 1) - 1) / (c + 1) = 0 := Nat.div_eq_of_lt (by omega)
    simp only [split_message, List.length_nil, h, List.range_zero, List.map_nil]

theorem split_message_cons (message : Text) (c : Nat) (hc : 0 < c)
    (hm : message ≠ []) :
    split_message message c =
      message.take c :: split_message (message.drop c) c := by
  have hL : 0 < message.length := List.length_pos.mpr hm
  have hceil : (message.length + c - 1) / c = (message.length - 1) / c + 1 := by
    have h1 : message.length + c - 1 = (message.length - 1) + c := by omega
    rw [h1, Nat.add_div_right _ hc]
  have hrec : ((message.drop c).length + c - 1) / c = (message.length - 1) / c := by
    rw [List.length_drop]
    rcases le_or_lt c message.length with hle | hlt
    · have h1 : message.length - c + c - 1 = message.length - 1 := by omega
      rw [h1]
    · have h1 : message.length - c = 0 := by omega
      rw [h1]
      have h2 : (0 + c - 1) / c = 0 := Nat.div_eq_of_lt (by omega)
      have h3 : (message.length - 1) / c = 0 := Nat.div_eq_of_lt (by omega)
      rw [h2, h3]
  unfold split_message
  rw [hceil, List.range_succ_eq_map, List.map_cons, List.map_map, hrec]
  congr 1
  · simp
  · apply List.map_congr_left
    intro k _
    simp only [Function.comp_apply]
    rw [List.drop_drop, Nat.succ_mul, Nat.add_comm]

theorem split_message_flatten_aux (c : Nat) (hc : 0 < c) :
    ∀ (fuel : Nat) (message : Text), message.length ≤ fuel →
      (split_message message c).flatten = message := by
  intro fuel
  induction fuel with
  | zero =>
    intro message hlen
    have hm : message = [] := List.length_eq_zero.mp (by omega)
    rw [hm, split_message_nil]
    rfl
  | succ n ih =>
    intro message hlen
    by_cases hm : message = []
    · rw [hm, split_message_nil]; rfl
    · rw [split_message_cons message c hc hm, List.flatten_cons]
      rw [ih (message.drop c) (by
        rw [List.length_drop]
        have := List.length_pos.mpr hm
        omega)]
      exact List.take_append_drop c message

theorem split_message_flatten (c : Nat) (hc : 0 < c) (message : Text) :
    (split_message message c).flatten = message :=
  split_message_flatten_aux c hc message.length message (Nat.le_refl _)

/-- Claim C4: with chunk size 4000, `split_message` returns chunks each of
length at most 4000, every chunk except possibly the last of length exactly
4000, in order, whose concatenation is the input exactly; a 9500-character
string yields chunks of lengths 4000, 4000, 1500. -/
theorem C4_split_message_chunks (s : Text) :
    (∀ chunk ∈ split_message s 4000, chunk.length ≤ 4000) ∧
    (∀ k, k + 1 < (split_message s 4000).length →
      ∃ chunk, (split_message s 4000)[k]? = some chunk ∧ chunk.length = 4000) ∧
    (split_message s 4000).flatten = s ∧
    (s.length = 9500 →
      (split_message s 4000).map List.length = [4000, 4000, 1500]) := by
  refine ⟨?_, ?_, split_message_flatten 4000 (by omega) s, ?_⟩
  · intro chunk hmem
    simp only [split_message, List.mem_map, List.mem_range] at hmem
    obtain ⟨k, -, rfl⟩ := hmem
    exact List.length_take_le _ _
  · intro k hk
    simp only [split_message, List.length_map, List.length_range] at hk
    have hk' : k < (s.length + 4000 - 1) / 4000 := by omega
    refine ⟨(s.drop (k * 4000)).take 4000, ?_, ?_⟩
    · simp only [split_message, List.getElem?_map, List.getElem?_range, hk',
        if_pos, Option.map_some']
    · rw [List.length_take, List.length_drop]
      have h2 : k + 2 ≤ (s.length + 4000 - 1) / 4000 := by omega
      have h3 : (k + 2) * 4000 ≤ s.length + 4000 - 1 :=
        (Nat.le_div_iff_mul_le (by omega)).mp h2
      omega
  · intro hlen
    rw [split_message_map_length, hlen]
    decide

theorem C4_split_message_chunks_witness :
    (split_message (List.replicate 9500 'a') 4000).map List.length =
      [4000, 4000, 1500] :=
  (C4_split_message_chunks (List.replicate 9500 'a')).2.2.2
    (by rw [List.length_replicate])

/-! ### Conversation state machine (aiogram FSM) -/

/-- The aiogram FSM states declared by the four `StatesGroup`s in bot.py
(`RegistrationForm`, `DiaryForm`, `ReminderForm`, `FeedbackForm`), plus
`idle` for "no state set" (a fresh user, or after `state.clear()`). -/
inductive FsmState where
  | idle
  | regName
  | regAge
  | regEmail
  | diarySituation
  | diaryThought
  | diaryEmotion
  | diaryReaction
  | reminderTime
  | feedback
  deriving DecidableEq

/-- The per-user FSM data dictionary (`state.update_data` / `state.get_data`):
one optional field per key ever written in bot.py, `none` embedding an absent
key. `state.clear()` resets every field to `none`. -/
structure FsmData where
  name : Option Text := none
  age : Option Nat := none
  email : Option Text := none
  situation : Option Text := none
  thought : Option Text := none
  emotion : Option Text := none
  reaction : Option Text := none
  deriving DecidableEq

/-- Outbound messages relevant to the claims, tagged by which `answer` /
`send_message` call in bot.py produces them. -/
inductive Reply where
  | askName
  | askAge
  | askEmail
  | invalidAge
  | registered
  | askSituation
  | reminderTimeSet (t : Text)
  | reminderTimeError
  | notRegistered
  | noDiaryEntries
  | gatewayError (e : Text)
  | chunk (c : Text)
  | reminderNotification
  deriving DecidableEq

/-! ### Text helpers for the Python string operations used in bot.py -/

/-- Python `str.isdigit` (ASCII digits): true on a non-empty string whose
characters are all decimal digits; `"".isdigit()` is `False`. -/
def isDigits (s : Text) : Bool := !s.isEmpty && s.all Char.isDigit

/-- Python `int` on a string of decimal digits. -/
def parseNat (s : Text) : Nat :=
  s.foldl (fun acc ch => acc * 10 + (ch.toNat - 48)) 0

/-- Python `int(s)` on a string expected to hold digits: `some` of the value
on a non-empty digit string, `none` (a `ValueError`) otherwise. -/
def parseNat? (s : Text) : Option Nat :=
  if isDigits s then some (parseNat s) else none

/-- Python `s.split(":")`: the maximal runs of non-colon characters, so
`"".split(":") = [""]` and colons at the ends yield empty parts. -/
def splitColon : Text → List Text
  | [] => [[]]
  | ch :: rest =>
    if ch = ':' then [] :: splitColon rest
    else
      match splitColon rest with
      | [] => [[ch]]
      | part :: parts => (ch :: part) :: parts

/-! ### SQLite tables as association lists -/

/-- A row of the `reminders` table (`init_db`, bot.py lines 801-811):
`user_id INTEGER PRIMARY KEY, enabled INTEGER DEFAULT 0, time TEXT,
last_sent_date DATE`. `time` and `last_sent_date` have no DEFAULT clause, so
an INSERT whose column list omits them stores NULL (`none`). Dates are
stored as their ISO string (Python's sqlite3 adapter renders a
`datetime.date` as `str(date)`). -/
structure RemRow where
  enabled : Nat
  time : Option Text
  last_sent_date : Option Text
  deriving DecidableEq

/-- A table keyed by its `INTEGER PRIMARY KEY`: at most one row per key in a
well-formed table. -/
abbrev Table (α : Type) := List (Nat × α)

/-- The `reminders` table keyed by `user_id`. -/
abbrev RemDb := Table RemRow

/-- Embedding of `SELECT ... WHERE key = uid` on a primary-key column: the first (in a
well-formed table, only) row with the given key. -/
def lookupRow {α : Type} (uid : Nat) (db : Table α) : Option α :=
  (db.find? (fun p => p.1 == uid)).map (fun p => p.2)

/-- SQLite `INSERT OR REPLACE` under an `INTEGER PRIMARY KEY` conflict: the
conflicting row (if any) is deleted and the full new row is inserted, with
columns absent from the column list set to their schema defaults. -/
def insertOrReplace {α : Type} (uid : Nat) (row : α) (db : Table α) : Table α :=
  (db.filter (fun p => p.1 != uid)) ++ [(uid, row)]

theorem lookupRow_insertOrReplace_self {α : Type} (uid : Nat) (row : α)
    (db : Table α) : lookupRow uid (insertOrReplace uid row db) = some row := by
  rw [lookupRow, insertOrReplace, List.find?_append]
  have hnone : (db.filter (fun p => p.1 != uid)).find? (fun p => p.1 == uid)
      = none := by
    rw [List.find?_eq_none]
    intro p hp
    have := List.of_mem_filter hp
    simp only [bne_iff_ne, ne_eq] at this
    simp [this]
  rw [hnone]
  simp

/-! ### toggle_reminders (bot.py lines 682-703), database effect -/

/-- Embedding of the database effect of `toggle_reminders`:
`INSERT OR REPLACE INTO reminders (user_id, enabled) VALUES (?, ?)` with
`1 if enable_reminders else 0`; `time` and `last_sent_date` are absent from
the column list, so the replaced row stores their defaults (NULL). -/
def toggle_reminders (uid : Nat) (enable_reminders : Bool) (db : RemDb) :
    RemDb :=
  insertOrReplace uid
    { enabled := if enable_reminders then 1 else 0
      time := none
      last_sent_date := none } db

/-! ### process_reminder_time (bot.py lines 714-744) -/

/-- Result of one message handler invocation touching the reminders store. -/
structure TimeOutcome where
  db : RemDb
  fsm : FsmState
  data : FsmData
  replies : List Reply
  deriving DecidableEq

/-- Embedding of `process_reminder_time`, which runs with the conversation in
`ReminderForm.time`. The `try` block raises `ValueError` when the format
check fails (`len(s) != 5`, `s[2] != ':'`, or `s.replace(":", "").isdigit()`
false), when unpacking `hours, minutes = map(int, s.split(":"))` does not
yield exactly two integers, or when the parsed hour or minute is out of
range (`0 <= hours < 24 and 0 <= minutes < 60`; the lower bounds are
automatic for `Nat`); the `except ValueError` branch replies with an error
and leaves the state and the database untouched. On success the row is
written with `INSERT OR REPLACE INTO reminders (user_id, enabled, time)
VALUES (?, 1, ?)` (so `last_sent_date` stores its default NULL) and
`state.clear()` resets the state and the data. -/
def process_reminder_time (uid : Nat) (text : Text) (db : RemDb)
    (data : FsmData) : TimeOutcome :=
  if text.length != 5 || text[2]? != some ':'
      || !isDigits (text.filter (fun ch => ch != ':')) then
    ⟨db, .reminderTime, data, [.reminderTimeError]⟩
  else
    match splitColon text with
    | [hs, ms] =>
      match parseNat? hs, parseNat? ms with
      | some hours, some minutes =>
        if hours < 24 ∧ minutes < 60 then
          ⟨insertOrReplace uid
              { enabled := 1, time := some text, last_sent_date := none } db,
            .idle, {}, [.reminderTimeSet text]⟩
        else ⟨db, .reminderTime, data, [.reminderTimeError]⟩
      | _, _ => ⟨db, .reminderTime, data, [.reminderTimeError]⟩
    | _ => ⟨db, .reminderTime, data, [.reminderTimeError]⟩

/-- The acceptance condition exactly as the specification states it: the
input is exactly 5 characters, the character at index 2 is ':', the
characters at the remaining indices 0, 1, 3, 4 are digits, and the hour
parsed from the first two characters is at most 23 while the minute parsed
from the last two is at most 59. -/
def specTimeAccepts (s : Text) : Prop :=
  s.length = 5 ∧ s[2]? = some ':' ∧
  (∀ i ∈ [0, 1, 3, 4], (s[i]?.any Char.isDigit) = true) ∧
  parseNat (s.take 2) ≤ 23 ∧ parseNat (s.drop 3) ≤ 59

instance (s : Text) : Decidable (specTimeAccepts s) := by
  unfold specTimeAccepts; infer_instance

theorem isDigit_ne_colon {ch : Char} (h : ch.isDigit = true) : ch ≠ ':' := by
  intro hc
  subst hc
  exact absurd h (by decide)

theorem process_reminder_time_core (uid : Nat) (db : RemDb) (data : FsmData)
    (a b c d e : Char) :
    process_reminder_time uid [a, b, c, d, e] db data =
      if specTimeAccepts [a, b, c, d, e]
      then ⟨insertOrReplace uid
              ⟨1, some [a, b, c, d, e], none⟩ db, .idle, {},
            [.reminderTimeSet [a, b, c, d, e]]⟩
      else ⟨db, .reminderTime, data, [.reminderTimeError]⟩ := by
  by_cases hc : c = ':'
  case neg =>
    rw [if_neg (by simp [specTimeAccepts]; intro h; exact absurd h hc)]
    simp [process_reminder_time, hc]
  case pos =>
    subst hc
    by_cases ha : a = ':' <;> by_cases hb : b = ':' <;>
      by_cases hd : d = ':' <;> by_cases he : e = ':' <;> subst_vars
    all_goals try
      (rw [if_neg (by simp [specTimeAccepts])]
       unfold process_reminder_time
       split
       · rfl
       · simp_all [splitColon])
    -- remaining: none of a, b, d, e is ':'
    have hsplit : splitColon [a, b, ':', d, e] = [[a, b], [d, e]] := by
      simp [splitColon, ha, hb, hd, he]
    have hfilter : [a, b, ':', d, e].filter (fun ch => ch != ':')
        = [a, b, d, e] := by
      simp [ha, hb, hd, he]
    by_cases hdig : a.isDigit = true ∧ b.isDigit = true ∧ d.isDigit = true
        ∧ e.isDigit = true
    · obtain ⟨hda, hdb, hdd, hde⟩ := hdig
      have hd1 : isDigits [a, b] = true := by simp [isDigits, hda, hdb]
      have hd2 : isDigits [d, e] = true := by simp [isDigits, hdd, hde]
      have hd4 : isDigits [a, b, d, e] = true := by
        simp [isDigits, hda, hdb, hdd, hde]
      by_cases hbound : parseNat [a, b] ≤ 23 ∧ parseNat [d, e] ≤ 59
      · rw [if_pos (by
          simp [specTimeAccepts, hda, hdb, hdd, hde]
          exact ⟨hbound.1, hbound.2⟩)]
        simp [process_reminder_time, hfilter, hd4, hsplit, parseNat?,
          hd1, hd2]
        omega
      · have hbound' : parseNat [a, b] ≤ 23 → ¬ parseNat [d, e] ≤ 59 :=
          fun h1 h2 => hbound ⟨h1, h2⟩
        rw [if_neg (by
          simp [specTimeAccepts, hda, hdb, hdd, hde]
          intro h1
          have h2 := hbound' h1
          omega)]
        simp [process_reminder_time, hfilter, hd4, hsplit, parseNat?,
          hd1, hd2]
        omega
    · rw [if_neg (by
        simp [specTimeAccepts]
        intro h1 h2 h3 h4
        exact absurd ⟨h1, h2, h3, h4⟩ hdig)]
      have hnd : isDigits [a, b, d, e] = false := by
        simp [isDigits]
        intro h1 h2 h3
        by_contra h4
        exact hdig ⟨h1, h2, h3, by simpa using h4⟩
      simp [process_reminder_time, hfilter, hnd]

/-- Shared characterization of `process_reminder_time`: it commits exactly
when the specification's acceptance condition holds, writing the row
`(enabled = 1, time = input, last_sent_date = NULL)` and clearing the
state; otherwise it replies with an error leaving state, data and the
database untouched. -/
theorem process_reminder_time_spec (uid : Nat) (text : Text) (db : RemDb)
    (data : FsmData) :
    process_reminder_time uid text db data =
      if specTimeAccepts text
      then ⟨insertOrReplace uid ⟨1, some text, none⟩ db, .idle, {},
            [.reminderTimeSet text]⟩
      else ⟨db, .reminderTime, data, [.reminderTimeError]⟩ := by
  match text with
  | [a, b, c, d, e] => exact process_reminder_time_core uid db data a b c d e
  | [] =>
    rw [if_neg (by simp [specTimeAccepts])]
    simp [process_reminder_time]
  | [a] =>
    rw [if_neg (by simp [specTimeAccepts])]
    simp [process_reminder_time]
  | [a, b] =>
    rw [if_neg (by simp [specTimeAccepts])]
    simp [process_reminder_time]
  | [a, b, c] =>
    rw [if_neg (by simp [specTimeAccepts])]
    simp [process_reminder_time]
  | [a, b, c, d] =>
    rw [if_neg (by simp [specTimeAccepts])]
    simp [process_reminder_time]
  | a :: b :: c :: d :: e :: f :: rest =>
    rw [if_neg (by simp [specTimeAccepts])]
    simp [process_reminder_time]

/-- Claim C2: `process_reminder_time` accepts an input and commits it as
the reminder time if and only if the input is exactly 5 characters, the
character at index 2 is ':', the remaining 4 characters are digits, and
the parsed hour is in [0,23] and the minute in [0,59]; every rejected
input produces a user-facing error, leaves the conversation in the
`ReminderForm.time` state with the session data intact, and writes nothing
to the store. With "25:00", "12:60", "1230", "12:3" rejected and "00:00",
"23:59" accepted, exercised by the witness. -/
theorem C2_process_reminder_time_validation (uid : Nat) (text : Text)
    (db : RemDb) (data : FsmData) :
    (specTimeAccepts text →
      process_reminder_time uid text db data =
        ⟨insertOrReplace uid ⟨1, some text, none⟩ db, .idle, {},
          [.reminderTimeSet text]⟩) ∧
    (¬ specTimeAccepts text →
      process_reminder_time uid text db data =
        ⟨db, .reminderTime, data, [.reminderTimeError]⟩) := by
  constructor
  · intro h
    rw [process_reminder_time_spec, if_pos h]
  · intro h
    rw [process_reminder_time_spec, if_neg h]

theorem C2_process_reminder_time_validation_witness :
    process_reminder_time 7 "23:59".toList [] {} =
      ⟨insertOrReplace 7 ⟨1, some "23:59".toList, none⟩ [], .idle, {},
        [.reminderTimeSet "23:59".toList]⟩ ∧
    process_reminder_time 7 "00:00".toList [] {} =
      ⟨insertOrReplace 7 ⟨1, some "00:00".toList, none⟩ [], .idle, {},
        [.reminderTimeSet "00:00".toList]⟩ ∧
    process_reminder_time 7 "25:00".toList [] {} =
      ⟨[], .reminderTime, {}, [.reminderTimeError]⟩ ∧
    process_reminder_time 7 "12:60".toList [] {} =
      ⟨[], .reminderTime, {}, [.reminderTimeError]⟩ ∧
    process_reminder_time 7 "1230".toList [] {} =
      ⟨[], .reminderTime, {}, [.reminderTimeError]⟩ ∧
    process_reminder_time 7 "12:3".toList [] {} =
      ⟨[], .reminderTime, {}, [.reminderTimeError]⟩ :=
  ⟨(C2_process_reminder_time_validation 7 _ [] {}).1 (by decide),
   (C2_process_reminder_time_validation 7 _ [] {}).1 (by decide),
   (C2_process_reminder_time_validation 7 _ [] {}).2 (by decide),
   (C2_process_reminder_time_validation 7 _ [] {}).2 (by decide),
   (C2_process_reminder_time_validation 7 _ [] {}).2 (by decide),
   (C2_process_reminder_time_validation 7 _ [] {}).2 (by decide)⟩

/-- Claim C6: every write to a user's reminders row is an `INSERT OR
REPLACE` of the whole row, so unsupplied columns are reset to their
defaults rather than preserved. Toggling reminders on or off stores
`time = NULL` and `last_sent_date = NULL`, and committing a new reminder
time stores `enabled = 1` and `last_sent_date = NULL`, regardless of the
row's prior contents (universally quantified over both tables). -/
theorem C6_insert_or_replace_resets_columns (uid : Nat) (enable : Bool)
    (text : Text) (db db' : RemDb) (data : FsmData)
    (ht : specTimeAccepts text) :
    lookupRow uid (toggle_reminders uid enable db) =
      some ⟨if enable then 1 else 0, none, none⟩ ∧
    lookupRow uid (process_reminder_time uid text db' data).db =
      some ⟨1, some text, none⟩ := by
  constructor
  · exact lookupRow_insertOrReplace_self uid _ db
  · rw [process_reminder_time_spec, if_pos ht]
    exact lookupRow_insertOrReplace_self uid _ db'

theorem C6_insert_or_replace_resets_columns_witness :
    lookupRow 7 (toggle_reminders 7 false
        [(7, ⟨1, some "09:00".toList, some "2026-10-11".toList⟩)]) =
      some ⟨0, none, none⟩ ∧
    lookupRow 7 (process_reminder_time 7 "09:00".toList
        [(7, ⟨0, some "08:00".toList, some "2026-10-11".toList⟩)] {}).db =
      some ⟨1, some "09:00".toList, none⟩ := by
  have h := C6_insert_or_replace_resets_columns 7 false "09:00".toList
    [(7, ⟨1, some "09:00".toList, some "2026-10-11".toList⟩)]
    [(7, ⟨0, some "08:00".toList, some "2026-10-11".toList⟩)] {} (by decide)
  exact h

/-! ### send_reminders (bot.py lines 219-256) -/

/-- Result of one scheduler tick: the reminders table after the tick, the
user ids to whom a delivery was attempted (in scan order), and the user ids
whose delivery failed and was logged by the `except` branch. -/
structure TickResult where
  db : RemDb
  sent : List Nat
  logged : List Nat

/-- Embedding of `UPDATE reminders SET last_sent_date = ? WHERE user_id = ?`; the bound
parameter is `current_date`, stored as its ISO string. -/
def updateLastSent (today : Text) (uid : Nat) (db : RemDb) : RemDb :=
  db.map (fun p =>
    if p.1 = uid then (p.1, { p.2 with last_sent_date := some today }) else p)

/-- The `for` loop of `send_reminders` over the rows fetched by the SELECT:
a row whose `last_sent_date` already equals `str(current_date)` is skipped
(`continue`); otherwise delivery is attempted, and only when
`bot.send_message` returns without raising (`deliver` of the user id is
`true`) is `last_sent_date` updated to today and committed; a raising send
is caught, logged, and the loop continues with the next row. -/
def tickLoop (today : Text) (deliver : Nat → Bool) :
    RemDb → List (Nat × RemRow) → TickResult
  | db, [] => ⟨db, [], []⟩
  | db, row :: rest =>
    if row.2.last_sent_date = some today then tickLoop today deliver db rest
    else if deliver row.1 then
      let r := tickLoop today deliver (updateLastSent today row.1 db) rest
      ⟨r.db, row.1 :: r.sent, r.logged⟩
    else
      let r := tickLoop today deliver db rest
      ⟨r.db, row.1 :: r.sent, row.1 :: r.logged⟩

/-- The rows fetched by `SELECT user_id, last_sent_date FROM reminders WHERE
enabled = 1 AND time = ?` with the current wall-clock minute bound. -/
def selectedRows (now : Text) (db : RemDb) : List (Nat × RemRow) :=
  db.filter (fun p => p.2.enabled == 1 && p.2.time == some now)

/-- Embedding of `send_reminders`: `now` is
`datetime.now(moscow_tz).strftime("%H:%M")`, `today` the ISO string of
`datetime.now(moscow_tz).date()`, and `deliver` the messaging collaborator.
The SELECT snapshot is fetched once, then the loop runs over it while the
updates are applied to the table. -/
def send_reminders (now today : Text) (deliver : Nat → Bool) (db : RemDb) :
    TickResult :=
  tickLoop today deliver db (selectedRows now db)

theorem tickLoop_sent (today : Text) (deliver : Nat → Bool) (db : RemDb)
    (rows : List (Nat × RemRow)) :
    (tickLoop today deliver db rows).sent =
      (rows.filter
        (fun p => p.2.last_sent_date != some today)).map Prod.fst := by
  induction rows generalizing db with
  | nil => rfl
  | cons row rest ih =>
    by_cases hskip : row.2.last_sent_date = some today
    · simp [tickLoop, hskip, List.filter_cons, ih]
    · by_cases hdel : deliver row.1 = true
      · simp [tickLoop, hskip, hdel, List.filter_cons, ih]
      · simp [tickLoop, hskip, hdel, List.filter_cons, ih]

theorem tickLoop_logged (today : Text) (deliver : Nat → Bool) (db : RemDb)
    (rows : List (Nat × RemRow)) :
    (tickLoop today deliver db rows).logged =
      (rows.filter (fun p =>
        p.2.last_sent_date != some today && !deliver p.1)).map Prod.fst := by
  induction rows generalizing db with
  | nil => rfl
  | cons row rest ih =>
    by_cases hskip : row.2.last_sent_date = some today
    · simp [tickLoop, hskip, List.filter_cons, ih]
    · by_cases hdel : deliver row.1 = true
      · simp [tickLoop, hskip, hdel, List.filter_cons, ih]
      · simp [tickLoop, hskip, hdel, List.filter_cons, ih]

theorem updateLastSent_keys (today : Text) (uid : Nat) (db : RemDb) :
    (updateLastSent today uid db).map Prod.fst = db.map Prod.fst := by
  induction db with
  | nil => rfl
  | cons p rest ih =>
    by_cases hp : p.1 = uid <;> simp [updateLastSent, hp] <;>
      simpa [updateLastSent] using ih

theorem tickLoop_keys (today : Text) (deliver : Nat → Bool) (db : RemDb)
    (rows : List (Nat × RemRow)) :
    (tickLoop today deliver db rows).db.map Prod.fst = db.map Prod.fst := by
  induction rows generalizing db with
  | nil => rfl
  | cons row rest ih =>
    by_cases hskip : row.2.last_sent_date = some today
    · simp [tickLoop, hskip, ih]
    · by_cases hdel : deliver row.1 = true
      · simp [tickLoop, hskip, hdel, ih, updateLastSent_keys]
      · simp [tickLoop, hskip, hdel, ih]

theorem lookupRow_cons {α : Type} (k : Nat) (x : α) (rest : Table α)
    (v : Nat) :
    lookupRow v ((k, x) :: rest) =
      if k = v then some x else lookupRow v rest := by
  by_cases h : k = v <;> simp [lookupRow, List.find?_cons, h]

theorem updateLastSent_cons (today : Text) (uid k : Nat) (x : RemRow)
    (rest : RemDb) :
    updateLastSent today uid ((k, x) :: rest) =
      (if k = uid then (k, { x with last_sent_date := some today })
        else (k, x)) :: updateLastSent today uid rest := by
  by_cases h : k = uid <;> simp [updateLastSent, h]

theorem lookupRow_updateLastSent_ne (today : Text) (uid v : Nat)
    (db : RemDb) (h : ¬ v = uid) :
    lookupRow v (updateLastSent today uid db) = lookupRow v db := by
  induction db with
  | nil => rfl
  | cons p rest ih =>
    obtain ⟨k, x⟩ := p
    rw [updateLastSent_cons]
    by_cases hk : k = uid
    · rw [if_pos hk, lookupRow_cons, lookupRow_cons,
        if_neg (by omega), if_neg (by omega)]
      exact ih
    · rw [if_neg hk, lookupRow_cons, lookupRow_cons]
      by_cases hkv : k = v
      · rw [if_pos hkv, if_pos hkv]
      · rw [if_neg hkv, if_neg hkv]
        exact ih

theorem lookupRow_updateLastSent_self (today : Text) (uid : Nat)
    (db : RemDb) :
    lookupRow uid (updateLastSent today uid db) =
      (lookupRow uid db).map
        (fun r => { r with last_sent_date := some today }) := by
  induction db with
  | nil => rfl
  | cons p rest ih =>
    obtain ⟨k, x⟩ := p
    rw [updateLastSent_cons]
    by_cases hk : k = uid
    · rw [if_pos hk, lookupRow_cons, lookupRow_cons, if_pos hk, if_pos hk]
      rfl
    · rw [if_neg hk, lookupRow_cons, lookupRow_cons, if_neg hk, if_neg hk]
      exact ih

theorem tickLoop_lookup_not_mem (today : Text) (deliver : Nat → Bool)
    (db : RemDb) (rows : List (Nat × RemRow)) (v : Nat)
    (hv : v ∉ rows.map Prod.fst) :
    lookupRow v (tickLoop today deliver db rows).db = lookupRow v db := by
  induction rows generalizing db with
  | nil => rfl
  | cons row rest ih =>
    simp only [List.map_cons, List.mem_cons, not_or] at hv
    by_cases hskip : row.2.last_sent_date = some today
    · simp only [tickLoop, if_pos hskip]
      exact ih db hv.2
    · by_cases hdel : deliver row.1 = true
      · simp only [tickLoop, if_neg hskip, if_pos hdel]
        rw [ih _ hv.2]
        exact lookupRow_updateLastSent_ne today row.1 v db hv.1
      · simp only [tickLoop, if_neg hskip, hdel, Bool.false_eq_true,
          if_false]
        exact ih db hv.2

theorem tickLoop_lookup_no_success (today : Text) (deliver : Nat → Bool)
    (db : RemDb) (rows : List (Nat × RemRow)) (v : Nat)
    (hv : ∀ p ∈ rows, p.1 = v →
      p.2.last_sent_date = some today ∨ deliver p.1 = false) :
    lookupRow v (tickLoop today deliver db rows).db = lookupRow v db := by
  induction rows generalizing db with
  | nil => rfl
  | cons row rest ih =>
    have hrest : ∀ p ∈ rest, p.1 = v →
        p.2.last_sent_date = some today ∨ deliver p.1 = false :=
      fun p hp => hv p (List.mem_cons_of_mem _ hp)
    by_cases hskip : row.2.last_sent_date = some today
    · simp only [tickLoop, if_pos hskip]
      exact ih db hrest
    · by_cases hdel : deliver row.1 = true
      · have hne : ¬ v = row.1 := by
          intro h
          rcases hv row (List.mem_cons_self _ _) h.symm with h1 | h2
          · exact hskip h1
          · rw [hdel] at h2; exact Bool.noConfusion h2
        simp only [tickLoop, if_neg hskip, if_pos hdel]
        rw [ih _ hrest]
        exact lookupRow_updateLastSent_ne today row.1 v db hne
      · simp only [tickLoop, if_neg hskip, hdel, Bool.false_eq_true,
          if_false]
        exact ih db hrest

theorem tickLoop_lookup_success (today : Text) (deliver : Nat → Bool)
    (rows : List (Nat × RemRow)) (uid : Nat) (r : RemRow)
    (hlast : r.last_sent_date ≠ some today) (hdel : deliver uid = true) :
    ∀ db : RemDb, (uid, r) ∈ rows → (rows.map Prod.fst).Nodup →
      lookupRow uid (tickLoop today deliver db rows).db =
        (lookupRow uid db).map
          (fun s => { s with last_sent_date := some today }) := by
  induction rows with
  | nil =>
    intro db hmem _
    exact absurd hmem (List.not_mem_nil _)
  | cons row rest ih =>
    intro db hmem hnodup
    simp only [List.map_cons, List.nodup_cons] at hnodup
    rcases List.mem_cons.mp hmem with heq | htail
    · subst heq
      simp only [tickLoop, if_neg hlast, if_pos hdel]
      rw [tickLoop_lookup_not_mem _ _ _ _ _ hnodup.1,
        lookupRow_updateLastSent_self]
    · have hne : ¬ uid = row.1 := by
        intro h
        exact hnodup.1 (h ▸ List.mem_map_of_mem Prod.fst htail)
      by_cases hskip : row.2.last_sent_date = some today
      · simp only [tickLoop, if_pos hskip]
        exact ih db htail hnodup.2
      · by_cases hdel' : deliver row.1 = true
        · simp only [tickLoop, if_neg hskip, if_pos hdel']
          rw [ih _ htail hnodup.2,
            lookupRow_updateLastSent_ne today row.1 uid db hne]
        · simp only [tickLoop, if_neg hskip, hdel', Bool.false_eq_true,
            if_false]
          exact ih db htail hnodup.2

theorem lookupRow_of_mem_nodup {α : Type} {uid : Nat} {r : α}
    {db : Table α} (hmem : (uid, r) ∈ db)
    (hnodup : (db.map Prod.fst).Nodup) : lookupRow uid db = some r := by
  induction db with
  | nil => exact absurd hmem (List.not_mem_nil _)
  | cons p rest ih =>
    obtain ⟨k, x⟩ := p
    simp only [List.map_cons, List.nodup_cons] at hnodup
    rcases List.mem_cons.mp hmem with heq | htail
    · rw [lookupRow_cons, if_pos (congrArg Prod.fst heq.symm)]
      exact congrArg some (congrArg Prod.snd heq.symm)
    · have hne : ¬ k = uid := by
        intro h
        exact hnodup.1 (h ▸ List.mem_map_of_mem Prod.fst htail)
      rw [lookupRow_cons, if_neg hne]
      exact ih htail hnodup.2

theorem mem_of_lookupRow {α : Type} {uid : Nat} {r : α} {db : Table α}
    (h : lookupRow uid db = some r) : (uid, r) ∈ db := by
  unfold lookupRow at h
  rcases hfind : db.find? (fun p => p.1 == uid) with _ | p
  · rw [hfind] at h; exact Option.noConfusion h
  · rw [hfind] at h
    have hp2 : p.2 = r := Option.some_injective _ h
    have hpred := List.find?_some hfind
    have hmem := List.mem_of_find?_eq_some hfind
    simp only [beq_iff_eq] at hpred
    have : p = (uid, r) := by
      cases p
      simp only at hpred hp2
      rw [hpred, hp2]
    rw [this] at hmem
    exact hmem

theorem mem_selectedRows {now : Text} {db : RemDb} {uid : Nat} {r : RemRow}
    (hmem : (uid, r) ∈ db) (hen : r.enabled = 1) (htime : r.time = some now) :
    (uid, r) ∈ selectedRows now db := by
  apply List.mem_filter_of_mem hmem
  simp [hen, htime]

theorem selectedRows_sublist_keys (now : Text) (db : RemDb) :
    ((selectedRows now db).map Prod.fst).Sublist (db.map Prod.fst) :=
  (List.filter_sublist db).map Prod.fst

theorem row_eq_of_mem_key {α : Type} {uid : Nat} {r : α} {db : Table α}
    {p : Nat × α} (hnodup : (db.map Prod.fst).Nodup) (hmem : (uid, r) ∈ db)
    (hp : p ∈ db) (hfst : p.1 = uid) : p.2 = r := by
  have h1 := lookupRow_of_mem_nodup hmem hnodup
  have h2 : lookupRow uid db = some p.2 := by
    apply lookupRow_of_mem_nodup _ hnodup
    obtain ⟨k, x⟩ := p
    cases hfst
    exact hp
  rw [h1] at h2
  exact (Option.some_injective _ h2).symm

/-- The per-tick attempt list restricted to one user: a user whose row is in
the SELECT result and not suppressed receives exactly one delivery attempt
during the tick (the table has unique keys). -/
theorem send_reminders_count_one (now today : Text) (deliver : Nat → Bool)
    (db : RemDb) (uid : Nat) (r : RemRow)
    (hnodup : (db.map Prod.fst).Nodup) (hmem : (uid, r) ∈ db)
    (hen : r.enabled = 1) (htime : r.time = some now)
    (hlast : r.last_sent_date ≠ some today) :
    (send_reminders now today deliver db).sent.count uid = 1 := by
  rw [send_reminders, tickLoop_sent]
  have hsub : (((selectedRows now db).filter
      (fun p => p.2.last_sent_date != some today)).map Prod.fst).Sublist
      (db.map Prod.fst) :=
    ((List.filter_sublist _).trans (List.filter_sublist _)).map Prod.fst
  have hnd := hnodup.sublist hsub
  have hmem' : uid ∈ ((selectedRows now db).filter
      (fun p => p.2.last_sent_date != some today)).map Prod.fst := by
    refine List.mem_map.mpr ⟨(uid, r), ?_, rfl⟩
    apply List.mem_filter_of_mem (mem_selectedRows hmem hen htime)
    exact bne_iff_ne.mpr hlast
  have hle := (List.nodup_iff_count_le_one.mp hnd) uid
  have hpos : ¬ (((selectedRows now db).filter
      (fun p => p.2.last_sent_date != some today)).map Prod.fst).count uid
        = 0 := by
    intro h0
    exact (List.count_eq_zero.mp h0) hmem'
  omega

/-- A user whose row is suppressed (already notified today) receives zero
delivery attempts during the tick. -/
theorem send_reminders_count_zero (now today : Text) (deliver : Nat → Bool)
    (db : RemDb) (uid : Nat) (r : RemRow)
    (hnodup : (db.map Prod.fst).Nodup) (hmem : (uid, r) ∈ db)
    (hlast : r.last_sent_date = some today) :
    (send_reminders now today deliver db).sent.count uid = 0 := by
  rw [send_reminders, tickLoop_sent, List.count_eq_zero]
  intro hmem'
  obtain ⟨p, hp, hfst⟩ := List.mem_map.mp hmem'
  have hpsel : p ∈ selectedRows now db := List.mem_of_mem_filter hp
  have hpdb : p ∈ db := List.mem_of_mem_filter hpsel
  have hg := List.of_mem_filter hp
  have hpr : p.2 = r := row_eq_of_mem_key hnodup hmem hpdb hfst
  rw [hpr] at hg
  exact (bne_iff_ne.mp hg) hlast

/-- A row whose every selected occurrence is skipped or fails delivery is
not written during the tick. -/
theorem send_reminders_lookup_no_success (now today : Text)
    (deliver : Nat → Bool) (db : RemDb) (uid : Nat) (r : RemRow)
    (hnodup : (db.map Prod.fst).Nodup) (hmem : (uid, r) ∈ db)
    (hcase : r.last_sent_date = some today ∨ deliver uid = false) :
    lookupRow uid (send_reminders now today deliver db).db = some r := by
  rw [send_reminders, tickLoop_lookup_no_success]
  · exact lookupRow_of_mem_nodup hmem hnodup
  · intro p hp hfst
    have hpdb : p ∈ db := List.mem_of_mem_filter hp
    have hpr : p.2 = r := row_eq_of_mem_key hnodup hmem hpdb hfst
    rw [hpr, hfst]
    exact hcase

theorem send_reminders_keys (now today : Text) (deliver : Nat → Bool)
    (db : RemDb) :
    (send_reminders now today deliver db).db.map Prod.fst =
      db.map Prod.fst := by
  rw [send_reminders]
  exact tickLoop_keys today deliver db (selectedRows now db)

/-- Claim C1: for a reminders row with `enabled = 1` whose stored time
equals the current minute, one tick attempts exactly one delivery and (on
successful delivery) sets `last_sent_date` to today's date when
`last_sent_date` is not today; when `last_sent_date` already equals today,
the tick attempts zero deliveries and leaves the row unchanged, and after a
successful notification a second tick the same day again attempts zero
deliveries and leaves the row unchanged. -/
theorem C1_send_reminders_once_per_day (now today : Text)
    (deliver : Nat → Bool) (db : RemDb) (uid : Nat) (r : RemRow)
    (hnodup : (db.map Prod.fst).Nodup) (hmem : (uid, r) ∈ db)
    (hen : r.enabled = 1) (htime : r.time = some now) :
    (r.last_sent_date ≠ some today → deliver uid = true →
      (send_reminders now today deliver db).sent.count uid = 1 ∧
      lookupRow uid (send_reminders now today deliver db).db =
        some { r with last_sent_date := some today } ∧
      (send_reminders now today deliver
        (send_reminders now today deliver db).db).sent.count uid = 0 ∧
      lookupRow uid (send_reminders now today deliver
        (send_reminders now today deliver db).db).db =
        some { r with last_sent_date := some today }) ∧
    (r.last_sent_date = some today →
      (send_reminders now today deliver db).sent.count uid = 0 ∧
      lookupRow uid (send_reminders now today deliver db).db = some r) := by
  constructor
  · intro hlast hdel
    have hlook : lookupRow uid (send_reminders now today deliver db).db =
        some { r with last_sent_date := some today } := by
      rw [send_reminders]
      rw [tickLoop_lookup_success today deliver (selectedRows now db) uid r
        hlast hdel db (mem_selectedRows hmem hen htime)
        (hnodup.sublist (selectedRows_sublist_keys now db))]
      rw [lookupRow_of_mem_nodup hmem hnodup]
      rfl
    have hnodup1 : ((send_reminders now today deliver db).db.map
        Prod.fst).Nodup := by
      rw [send_reminders_keys]; exact hnodup
    have hmem1 := mem_of_lookupRow hlook
    refine ⟨send_reminders_count_one now today deliver db uid r hnodup hmem
      hen htime hlast, hlook, ?_, ?_⟩
    · exact send_reminders_count_zero now today deliver _ uid _ hnodup1
        hmem1 rfl
    · exact send_reminders_lookup_no_success now today deliver _ uid _
        hnodup1 hmem1 (Or.inl rfl)
  · intro hlast
    exact ⟨send_reminders_count_zero now today deliver db uid r hnodup hmem
      hlast,
      send_reminders_lookup_no_success now today deliver db uid r hnodup
        hmem (Or.inl hlast)⟩

/-- Table used by the scheduler witnesses: user 1 matches the 09:00 tick
and was last notified yesterday, user 2 matches but was already notified
today, user 3 matches and was never notified. -/
def demoDb : RemDb :=
  [(1, ⟨1, some "09:00".toList, some "2026-10-11".toList⟩),
   (2, ⟨1, some "09:00".toList, some "2026-10-12".toList⟩),
   (3, ⟨1, some "09:00".toList, none⟩)]

theorem C1_send_reminders_once_per_day_witness :
    (send_reminders "09:00".toList "2026-10-12".toList (fun _ => true)
      demoDb).sent.count 1 = 1 ∧
    lookupRow 1 (send_reminders "09:00".toList "2026-10-12".toList
      (fun _ => true) demoDb).db =
      some ⟨1, some "09:00".toList, some "2026-10-12".toList⟩ ∧
    (send_reminders "09:00".toList "2026-10-12".toList (fun _ => true)
      (send_reminders "09:00".toList "2026-10-12".toList (fun _ => true)
        demoDb).db).sent.count 1 = 0 ∧
    lookupRow 1 (send_reminders "09:00".toList "2026-10-12".toList
      (fun _ => true)
      (send_reminders "09:00".toList "2026-10-12".toList (fun _ => true)
        demoDb).db).db =
      some ⟨1, some "09:00".toList, some "2026-10-12".toList⟩ :=
  (C1_send_reminders_once_per_day "09:00".toList "2026-10-12".toList
    (fun _ => true) demoDb 1 ⟨1, some "09:00".toList, some "2026-10-11".toList⟩
    (by decide) (by decide) rfl rfl).1 (by decide) rfl

/-- Claim C3: a delivery failure for one user during a tick leaves that
user's `last_sent_date` unchanged, is logged rather than raised (the loop
reaches its end), and every other matching user still receives a delivery
attempt during the same tick. -/
theorem C3_delivery_failure_isolated (now today : Text)
    (deliver : Nat → Bool) (db : RemDb) (uid : Nat) (r : RemRow)
    (hnodup : (db.map Prod.fst).Nodup) (hmem : (uid, r) ∈ db)
    (hen : r.enabled = 1) (htime : r.time = some now)
    (hlast : r.last_sent_date ≠ some today) (hfail : deliver uid = false) :
    lookupRow uid (send_reminders now today deliver db).db = some r ∧
    uid ∈ (send_reminders now today deliver db).sent ∧
    uid ∈ (send_reminders now today deliver db).logged ∧
    (∀ v s, (v, s) ∈ db → s.enabled = 1 → s.time = some now →
      s.last_sent_date ≠ some today →
      v ∈ (send_reminders now today deliver db).sent) := by
  refine ⟨send_reminders_lookup_no_success now today deliver db uid r hnodup
    hmem (Or.inr hfail), ?_, ?_, ?_⟩
  · rw [send_reminders, tickLoop_sent]
    refine List.mem_map.mpr ⟨(uid, r), ?_, rfl⟩
    apply List.mem_filter_of_mem (mem_selectedRows hmem hen htime)
    exact bne_iff_ne.mpr hlast
  · rw [send_reminders, tickLoop_logged]
    refine List.mem_map.mpr ⟨(uid, r), ?_, rfl⟩
    apply List.mem_filter_of_mem (mem_selectedRows hmem hen htime)
    simp [hfail, bne_iff_ne.mpr hlast]
  · intro v s hvmem hven hvtime hvlast
    rw [send_reminders, tickLoop_sent]
    refine List.mem_map.mpr ⟨(v, s), ?_, rfl⟩
    apply List.mem_filter_of_mem (mem_selectedRows hvmem hven hvtime)
    exact bne_iff_ne.mpr hvlast

theorem C3_delivery_failure_isolated_witness :
    lookupRow 1 (send_reminders "09:00".toList "2026-10-12".toList
      (fun u => u != 1) demoDb).db =
      some ⟨1, some "09:00".toList, some "2026-10-11".toList⟩ ∧
    1 ∈ (send_reminders "09:00".toList "2026-10-12".toList
      (fun u => u != 1) demoDb).sent ∧
    1 ∈ (send_reminders "09:00".toList "2026-10-12".toList
      (fun u => u != 1) demoDb).logged ∧
    (∀ v s, (v, s) ∈ demoDb → s.enabled = 1 →
      s.time = some "09:00".toList →
      s.last_sent_date ≠ some "2026-10-12".toList →
      v ∈ (send_reminders "09:00".toList "2026-10-12".toList
        (fun u => u != 1) demoDb).sent) :=
  C3_delivery_failure_isolated "09:00".toList "2026-10-12".toList
    (fun u => u != 1) demoDb 1
    ⟨1, some "09:00".toList, some "2026-10-11".toList⟩
    (by decide) (by decide) rfl rfl (by decide) rfl

/-! ### get_last_diary_entry and cmd_get_recommendation
(bot.py lines 259-274 and 514-550) -/

/-- A row of the `diary` table (`init_db`): autoincrement id, owning user,
the four free-text fields, `recommendation TEXT DEFAULT NULL`, and the
creation timestamp (embedded as a number; `CURRENT_TIMESTAMP` values grow
with insertion order). -/
structure DiaryRow where
  id : Nat
  user_id : Nat
  situation : Text
  thought : Text
  emotion : Text
  reaction : Text
  recommendation : Option Text
  created_at : Nat
  deriving DecidableEq

abbrev DiaryDb := List DiaryRow

/-- Embedding of `get_last_diary_entry`: `SELECT ... FROM diary WHERE
user_id = ? ORDER BY created_at DESC LIMIT 1` — among the user's rows, the
one with the greatest creation timestamp (the scan keeps the earlier row on
a tie). -/
def get_last_diary_entry (uid : Nat) (db : DiaryDb) : Option DiaryRow :=
  (db.filter (fun row => row.user_id == uid)).foldl
    (fun acc row =>
      match acc with
      | none => some row
      | some best =>
        if best.created_at < row.created_at then some row else some best)
    none

/-- Result of the Recommendation Gateway call
(`get_recommendation_with_memory`): generated text, or the message of the
exception raised (timeout, auth failure, rate limiting, service error). -/
abbrev GatewayResult := Except Text Text

/-- Embedding of `UPDATE diary SET recommendation = ? WHERE id = ?`. -/
def updateRecommendation (entryId : Nat) (reco : Text) (db : DiaryDb) :
    DiaryDb :=
  db.map (fun row =>
    if row.id = entryId then { row with recommendation := some reco }
    else row)

/-- Result of one `cmd_get_recommendation` invocation. -/
structure RecoOutcome where
  diary : DiaryDb
  fsm : FsmState
  data : FsmData
  replies : List Reply
  gatewayCalls : Nat
  deriving DecidableEq

/-- Embedding of `cmd_get_recommendation`. The handler takes no FSM
context in bot.py and never touches the conversation state, so state and
data are threaded through unchanged to make that observable. With no diary
rows it answers and returns without calling the Gateway. Otherwise it
calls the Gateway exactly once; on success it writes the recommendation to
the fetched entry's row and answers the 4000-character chunks of the text;
on an exception the `except` branch answers a single error message, the
UPDATE is never reached, and no second call is made. -/
def cmd_get_recommendation (uid : Nat) (gateway : GatewayResult)
    (diary : DiaryDb) (fsm : FsmState) (data : FsmData) : RecoOutcome :=
  match get_last_diary_entry uid diary with
  | none => ⟨diary, fsm, data, [.noDiaryEntries], 0⟩
  | some entry =>
    match gateway with
    | .ok reco =>
      ⟨updateRecommendation entry.id reco diary, fsm, data,
        (split_message reco 4000).map Reply.chunk, 1⟩
    | .error e => ⟨diary, fsm, data, [.gatewayError e], 1⟩

/-- Claim C5: when the Gateway request fails during
`cmd_get_recommendation`, the diary table is unchanged (the UPDATE is never
executed), so the most recent entry — and in particular its null
recommendation — stays exactly as it was; the wizard state and session
data are not altered; the user is shown exactly one error message; and the
Gateway is called exactly once (no retry). -/
theorem C5_gateway_failure_leaves_recommendation_null (uid : Nat) (e : Text)
    (diary : DiaryDb) (fsm : FsmState) (data : FsmData) (entry : DiaryRow)
    (hlast : get_last_diary_entry uid diary = some entry) :
    (cmd_get_recommendation uid (.error e) diary fsm data).diary = diary ∧
    get_last_diary_entry uid
      (cmd_get_recommendation uid (.error e) diary fsm data).diary =
      some entry ∧
    (entry.recommendation = none →
      (get_last_diary_entry uid
        (cmd_get_recommendation uid (.error e) diary fsm data).diary).map
          DiaryRow.recommendation = some none) ∧
    (cmd_get_recommendation uid (.error e) diary fsm data).fsm = fsm ∧
    (cmd_get_recommendation uid (.error e) diary fsm data).data = data ∧
    (cmd_get_recommendation uid (.error e) diary fsm data).replies =
      [.gatewayError e] ∧
    (cmd_get_recommendation uid (.error e) diary fsm data).gatewayCalls
      = 1 := by
  have houtcome : cmd_get_recommendation uid (.error e) diary fsm data =
      ⟨diary, fsm, data, [.gatewayError e], 1⟩ := by
    rw [cmd_get_recommendation, hlast]
  rw [houtcome]
  refine ⟨rfl, hlast, ?_, rfl, rfl, rfl, rfl⟩
  intro hnone
  rw [hlast, Option.map_some', hnone]

/-- Diary table used by the recommendation witness: one user with one
entry whose recommendation is still null. -/
def demoDiary : DiaryDb :=
  [⟨1, 7, "s".toList, "t".toList, "e".toList, "r".toList, none, 10⟩]

theorem C5_gateway_failure_leaves_recommendation_null_witness :
    (cmd_get_recommendation 7 (.error "timeout".toList) demoDiary .idle {}
      ).diary = demoDiary ∧
    get_last_diary_entry 7
      (cmd_get_recommendation 7 (.error "timeout".toList) demoDiary .idle {}
        ).diary =
      some ⟨1, 7, "s".toList, "t".toList, "e".toList, "r".toList, none, 10⟩ ∧
    ((⟨1, 7, "s".toList, "t".toList, "e".toList, "r".toList, none, 10⟩ :
        DiaryRow).recommendation = none →
      (get_last_diary_entry 7
        (cmd_get_recommendation 7 (.error "timeout".toList) demoDiary .idle
          {}).diary).map DiaryRow.recommendation = some none) ∧
    (cmd_get_recommendation 7 (.error "timeout".toList) demoDiary .idle {}
      ).fsm = .idle ∧
    (cmd_get_recommendation 7 (.error "timeout".toList) demoDiary .idle {}
      ).data = {} ∧
    (cmd_get_recommendation 7 (.error "timeout".toList) demoDiary .idle {}
      ).replies = [.gatewayError "timeout".toList] ∧
    (cmd_get_recommendation 7 (.error "timeout".toList) demoDiary .idle {}
      ).gatewayCalls = 1 :=
  C5_gateway_failure_leaves_recommendation_null 7 "timeout".toList demoDiary
    .idle {} ⟨1, 7, "s".toList, "t".toList, "e".toList, "r".toList, none, 10⟩
    (by decide)

/-! ### Registration wizard (bot.py lines 367-420) -/

/-- The non-key columns of a `users` row (`id INTEGER PRIMARY KEY, name,
age, email`). -/
structure UserRow where
  name : Text
  age : Nat
  email : Text
  deriving DecidableEq

abbrev UserDb := Table UserRow

/-- Result of one registration-handler invocation: conversation state and
data, the rows appended to `users` by `INSERT INTO users`, and the replies
sent. -/
structure RegOutcome where
  fsm : FsmState
  data : FsmData
  inserts : List (Nat × UserRow)
  replies : List Reply
  deriving DecidableEq

/-- Embedding of `process_name`: stores the message text under the `name` key and
advances to the age prompt. -/
def process_name (text : Text) (data : FsmData) : RegOutcome :=
  ⟨.regAge, { data with name := some text }, [], [.askAge]⟩

/-- Embedding of `process_age`: a text failing `str.isdigit` is rejected
("Пожалуйста, введите корректный возраст") and the handler returns with
the state still `RegistrationForm.age`; otherwise `int(text)` is stored
under `age` and the wizard advances to the email prompt. -/
def process_age (text : Text) (data : FsmData) : RegOutcome :=
  if isDigits text then
    ⟨.regEmail, { data with age := some (parseNat text) }, [], [.askEmail]⟩
  else
    ⟨.regAge, data, [], [.invalidAge]⟩

/-- Embedding of `process_email`: stores the email, reads the collected data:
`INSERT INTO users (id, name, age, email) VALUES (?, ?, ?, ?)` and clears
the state. A missing `name` or `age` key would raise `KeyError` at the
dict access, before the INSERT and before `state.clear()`. -/
def process_email (uid : Nat) (text : Text) (data : FsmData) : RegOutcome :=
  let data' := { data with email := some text }
  match data'.name, data'.age with
  | some n, some a => ⟨.idle, {}, [(uid, ⟨n, a, text⟩)], [.registered]⟩
  | _, _ => ⟨.regEmail, data', [], []⟩

/-- One full Registration run: the user supplies a name, then an age, then
an email, each message handled by the handler of the state the wizard is
then in; the INSERT log and replies are concatenated in order. -/
def runRegistration (uid : Nat) (n a e : Text) (data0 : FsmData) :
    RegOutcome :=
  let o1 := process_name n data0
  let o2 := process_age a o1.data
  let o3 := process_email uid e o2.data
  ⟨o3.fsm, o3.data, o1.inserts ++ o2.inserts ++ o3.inserts,
    o1.replies ++ o2.replies ++ o3.replies⟩

/-- Claim C7: a Registration run with name `n`, a valid age string `a`, and
email `e` inserts exactly one `users` row, whose fields are exactly the
inputs in order — `name = n`, `age = int(a)`, `email = e` — keyed by the
user's messaging-platform id, whatever data was left in the session before
the run; the wizard then returns to idle. -/
theorem C7_registration_commits_inputs (uid : Nat) (n a e : Text)
    (data0 : FsmData) (hva : isDigits a = true) :
    (runRegistration uid n a e data0).inserts =
      [(uid, ⟨n, parseNat a, e⟩)] ∧
    (runRegistration uid n a e data0).fsm = .idle := by
  simp [runRegistration, process_name, process_age, process_email, hva]

theorem C7_registration_commits_inputs_witness :
    (runRegistration 7 "Ann".toList "30".toList "a@b.c".toList
      ⟨some "stale".toList, some 99, none, none, none, none, none⟩).inserts =
      [(7, ⟨"Ann".toList, parseNat "30".toList, "a@b.c".toList⟩)] ∧
    (runRegistration 7 "Ann".toList "30".toList "a@b.c".toList
      ⟨some "stale".toList, some 99, none, none, none, none, none⟩).fsm =
      .idle :=
  C7_registration_commits_inputs 7 "Ann".toList "30".toList "a@b.c".toList
    ⟨some "stale".toList, some 99, none, none, none, none, none⟩ (by decide)

/-- Claim C8: an age input failing integer parsing makes `process_age`
re-prompt with an error, keeps the conversation in `RegistrationForm.age`,
leaves the session data unchanged and inserts no `users` row; a parseable
input stores the integer and advances the wizard to the email step (still
inserting nothing). -/
theorem C8_age_validation (text : Text) (data : FsmData) :
    (isDigits text = false →
      process_age text data = ⟨.regAge, data, [], [.invalidAge]⟩) ∧
    (isDigits text = true →
      process_age text data =
        ⟨.regEmail, { data with age := some (parseNat text) }, [],
          [.askEmail]⟩) := by
  constructor
  · intro h
    simp [process_age, h]
  · intro h
    simp [process_age, h]

theorem C8_age_validation_witness :
    process_age "3a".toList {} = ⟨.regAge, {}, [], [.invalidAge]⟩ ∧
    process_age "30".toList {} =
      ⟨.regEmail, { age := some (parseNat "30".toList) }, [],
        [.askEmail]⟩ :=
  ⟨(C8_age_validation "3a".toList {}).1 (by decide),
   (C8_age_validation "30".toList {}).2 (by decide)⟩

/-! ### RegistrationMiddleware (bot.py lines 147-176) -/

/-- An update delivered to the dispatcher: a chat message with its text, or
any other kind of event (`isinstance(event, Message)` false). -/
inductive Event where
  | message (chatId : Nat) (text : Text)
  | nonMessage
  deriving DecidableEq

/-- Middleware verdict: invoke the wrapped handler, or drop the request
after sending the listed replies. -/
inductive MwResult where
  | passed
  | dropped (sent : List Reply)
  deriving DecidableEq

/-- The states whose aiogram string form makes
`state and state.startswith("RegistrationForm:")` true; with no state set,
`state` is `None`, which is falsy. -/
def inRegistrationStates : FsmState → Bool
  | .regName => true
  | .regAge => true
  | .regEmail => true
  | _ => false

/-- Embedding of `RegistrationMiddleware.__call__`: a message whose text is
not exactly '/start' passes through when the conversation is in a
`RegistrationForm` state; otherwise `SELECT id FROM users WHERE id = ?` is
consulted and if no row exists the user is told to register and the
request is dropped (the wrapped handler is never invoked). Everything else
— '/start', registration states, registered users, non-message events —
passes through to the handler. -/
def registrationMiddleware (users : UserDb) (fsm : FsmState) (ev : Event) :
    MwResult :=
  match ev with
  | .nonMessage => .passed
  | .message chatId text =>
    if text = "/start".toList then .passed
    else if inRegistrationStates fsm then .passed
    else
      match lookupRow chatId users with
      | none => .dropped [.notRegistered]
      | some _ => .passed

/-- Claim C9: an inbound message whose text is not '/start', from a user
with no row in the `users` table and whose conversation state is not a
`RegistrationForm` state, makes the middleware send exactly one
"please register" message and drop the request: the wrapped handler is
never invoked and nothing else happens. -/
theorem C9_middleware_blocks_unregistered (users : UserDb)
    (fsm : FsmState) (uid : Nat) (text : Text)
    (htext : text ≠ "/start".toList)
    (hstate : inRegistrationStates fsm = false)
    (huser : lookupRow uid users = none) :
    registrationMiddleware users fsm (.message uid text) =
      .dropped [.notRegistered] := by
  have htext' : ¬ text = ['/', 's', 't', 'a', 'r', 't'] := by
    simpa using htext
  simp [registrationMiddleware, htext', hstate, huser]

theorem C9_middleware_blocks_unregistered_witness :
    registrationMiddleware [(3, ⟨"Bob".toList, 40, "b@c.d".toList⟩)]
        .idle (.message 7 "hello".toList) =
      .dropped [.notRegistered] :=
  C9_middleware_blocks_unregistered
    [(3, ⟨"Bob".toList, 40, "b@c.d".toList⟩)] .idle 7 "hello".toList
    (by decide) (by decide) (by decide)

/-! ### Message routing (handler registration order in bot.py) -/

def startCommandText : Text := "/start".toList
def newEntryCommandText : Text := "/new_entry".toList
def getRecoCommandText : Text := "/get_recommendation".toList
def menuNewEntryText : Text := "Добавить запись в дневник".toList
def menuGetRecoText : Text := "Получить рекомендацию".toList
def menuExportText : Text := "Экспортировать дневник".toList
def menuContinueText : Text := "Продолжить диалог с GigaChat".toList
def menuSettingsText : Text := "Настройки".toList
def menuFeedbackText : Text := "Оставить отзыв".toList

/-- The aiogram `Command` / `CommandStart` filter on a message text: the
command itself, optionally followed by an argument string after a space. -/
def isCommand (cmd text : Text) : Bool :=
  text == cmd || (cmd ++ [' ']).isPrefixOf text

/-- The `@dp.message` handlers of bot.py, in registration (file) order. -/
inductive Handler where
  | cmdStart
  | processName
  | processAge
  | processEmail
  | cmdNewEntry
  | menuNewEntry
  | processSituation
  | processThought
  | processEmotion
  | processReaction
  | menuGetRecommendation
  | cmdGetRecommendation
  | menuExportDiary
  | menuContinueDialog
  | followUpDialog
  | menuSettings
  | processReminderTime
  | menuFeedback
  | processFeedback
  | unhandled
  deriving DecidableEq

/-- Message routing: the aiogram dispatcher checks the `@dp.message`
handlers in registration order — bot.py top to bottom — and invokes the
first whose filters all match. State filters match the current FSM state;
text filters compare the message text; `replyGiga` embeds the
`handle_follow_up_with_gigachat` predicate (the message replies to a bot
message containing "ГигаЧат"). The three `RegistrationForm` handlers (file
lines 386-420) are registered before `cmd_new_entry` (line 422) and
`handle_menu_new_entry` (line 427), which in turn precede every other
state handler. -/
def route (text : Text) (fsm : FsmState) (replyGiga : Bool) : Handler :=
  if isCommand startCommandText text then .cmdStart
  else if fsm = .regName then .processName
  else if fsm = .regAge then .processAge
  else if fsm = .regEmail then .processEmail
  else if isCommand newEntryCommandText text then .cmdNewEntry
  else if text = menuNewEntryText then .menuNewEntry
  else if fsm = .diarySituation then .processSituation
  else if fsm = .diaryThought then .processThought
  else if fsm = .diaryEmotion then .processEmotion
  else if fsm = .diaryReaction then .processReaction
  else if text = menuGetRecoText then .menuGetRecommendation
  else if isCommand getRecoCommandText text then .cmdGetRecommendation
  else if text = menuExportText then .menuExportDiary
  else if text = menuContinueText then .menuContinueDialog
  else if replyGiga then .followUpDialog
  else if text = menuSettingsText then .menuSettings
  else if fsm = .reminderTime then .processReminderTime
  else if text = menuFeedbackText then .menuFeedback
  else if fsm = .feedback then .processFeedback
  else .unhandled

/-- The conversation state after the routed handler runs: the FSM effect of
each handler in bot.py (`set_state` / `state.clear()` calls); handlers
that never touch the FSM leave the state unchanged. `registered` selects
the branch of `cmd_start`; `db` is the reminders table read by
`process_reminder_time`. -/
def stateAfter (uid : Nat) (registered : Bool) (text : Text)
    (fsm : FsmState) (data : FsmData) (db : RemDb) : Handler → FsmState
  | .cmdStart => if registered then fsm else .regName
  | .processName => (process_name text data).fsm
  | .processAge => (process_age text data).fsm
  | .processEmail => (process_email uid text data).fsm
  | .cmdNewEntry => .diarySituation
  | .menuNewEntry => .diarySituation
  | .processSituation => .diaryThought
  | .processThought => .diaryEmotion
  | .processEmotion => .diaryReaction
  | .processReaction => .idle
  | .menuGetRecommendation => fsm
  | .cmdGetRecommendation => fsm
  | .menuExportDiary => fsm
  | .menuContinueDialog => fsm
  | .followUpDialog => fsm
  | .menuSettings => fsm
  | .processReminderTime => (process_reminder_time uid text db data).fsm
  | .menuFeedback => .feedback
  | .processFeedback => .idle
  | .unhandled => fsm

/-- The conversation state after one inbound message from a user is routed
and handled. -/
def dispatchState (uid : Nat) (registered : Bool) (text : Text)
    (replyGiga : Bool) (fsm : FsmState) (data : FsmData) (db : RemDb) :
    FsmState :=
  stateAfter uid registered text fsm data db (route text fsm replyGiga)

/-- Claim C10, counterexample: in the wizard state `RegistrationForm.name`,
the message '/new_entry' is routed to `process_name` — registered before
`cmd_new_entry` — which consumes it as the name and advances to
`RegistrationForm.age`, not to `DiaryForm.situation`; so the
implicit-reset discipline is not applied uniformly across wizard states. -/
theorem C10_new_entry_in_registration_counterexample :
    dispatchState 7 true newEntryCommandText false .regName {} [] =
      .regAge ∧
    FsmState.regAge ≠ FsmState.diarySituation := by
  constructor
  · rfl
  · decide

/-- Claim C10 as amended: receiving '/new_entry' or the new-entry menu
text in any state other than the three `RegistrationForm` states — idle,
any diary state, reminder-time, feedback — sets the user's state to the
first diary field `DiaryForm.situation`, discarding the in-progress form;
in the registration states the message is instead consumed as field input,
because the registration handlers are registered first. -/
theorem C10_new_entry_resets_outside_registration (uid : Nat)
    (registered : Bool) (fsm : FsmState) (data : FsmData) (db : RemDb)
    (h1 : fsm ≠ .regName) (h2 : fsm ≠ .regAge) (h3 : fsm ≠ .regEmail) :
    dispatchState uid registered newEntryCommandText false fsm data db =
      .diarySituation ∧
    dispatchState uid registered menuNewEntryText false fsm data db =
      .diarySituation := by
  cases fsm
  case regName => exact absurd rfl h1
  case regAge => exact absurd rfl h2
  case regEmail => exact absurd rfl h3
  all_goals exact ⟨rfl, rfl⟩

theorem C10_new_entry_resets_outside_registration_witness :
    dispatchState 7 true newEntryCommandText false .diaryThought {} [] =
      .diarySituation ∧
    dispatchState 7 true menuNewEntryText false .diaryThought {} [] =
      .diarySituation :=
  C10_new_entry_resets_outside_registration 7 true .diaryThought {} []
    (by decide) (by decide) (by decide)

end Bot
